import Mathlib

/-!
Shallow embedding of the core of the `rag-service` repository
(`src/app/services/vector_store.py`, `src/app/services/rag_service.py`,
`src/app/services/document_service.py`, `src/app/utils/cache.py`,
`src/app/utils/document_processor.py`) together with proofs of the
behavioural properties claimed for it.

Python scalar metadata values are modelled by `PyVal` (integers and
strings suffice for every claim); Python `dict`s are modelled as
insertion-ordered association lists, the same representation CPython
uses observably.  Clock readings and float quantities (similarity
scores, times) are modelled as rationals.  External collaborators
(ChromaDB, the embedding model, the LLM) are modelled as inputs: their
responses are parameters of the embedded functions, exactly the data
the Python code receives from them.
-/

set_option autoImplicit false

namespace RagSvc

/-- A Python scalar value as it occurs in chunk metadata and filters. -/
inductive PyVal where
  | int (n : Int)
  | str (s : String)
deriving DecidableEq, Repr

/-- A Python `dict` with string keys: an insertion-ordered association list. -/
abbrev PyDict := List (String × PyVal)

/-- Python `d.get(k)`: first binding of `k`, if any. -/
def dictLookup (d : PyDict) (k : String) : Option PyVal :=
  match d with
  | [] => none
  | (k', v) :: rest => if k' = k then some v else dictLookup rest k

/-- Python `d[k] = v`: replace the value of an existing key in place, else append. -/
def dictSet (d : PyDict) (k : String) (v : PyVal) : PyDict :=
  match d with
  | [] => [(k, v)]
  | (k', v') :: rest => if k' = k then (k', v) :: rest else (k', v') :: dictSet rest k v

/-- Python truthiness of a scalar: `0` and `""` are falsy. -/
def pyTruthy : PyVal → Bool
  | .int n => n ≠ 0
  | .str s => s ≠ ""

theorem dictLookup_dictSet_self (d : PyDict) (k : String) (v : PyVal) :
    dictLookup (dictSet d k v) k = some v := by
  induction d with
  | nil => simp [dictSet, dictLookup]
  | cons p rest ih =>
    by_cases h : p.1 = k
    · simp [dictSet, dictLookup, h]
    · simp [dictSet, dictLookup, h, ih]

theorem dictLookup_dictSet_ne (d : PyDict) (k k' : String) (v : PyVal) (h : k ≠ k') :
    dictLookup (dictSet d k v) k' = dictLookup d k' := by
  induction d with
  | nil => simp [dictSet, dictLookup, h]
  | cons p rest ih =>
    by_cases hp : p.1 = k
    · simp [dictSet, dictLookup, hp, h]
    · simp only [dictSet, if_neg hp, dictLookup]
      by_cases hp' : p.1 = k' <;> simp [hp', ih]

/-! ## `VectorStore.add_documents` (vector_store.py, lines 55–106)

The per-chunk metadata is the Python dict literal
`{**metadata, "document_id": ..., "chunk_index": i, "created_at": ...}`:
the caller metadata with the three system keys set afterwards, so the
system values win.  `created_at` (a `datetime.utcnow().isoformat()`
string) and the generated/supplied `document_id` are inputs here. -/

/-- One record inserted into the Chroma collection: id, text, metadata. -/
structure ChunkRecord where
  id : String
  text : String
  meta : PyDict
deriving DecidableEq, Repr

/-- Per-chunk metadata built by `add_documents` for chunk index `i`. -/
def chunkMetadata (metadata : PyDict) (document_id : String) (i : Nat)
    (created_at : String) : PyDict :=
  dictSet (dictSet (dictSet metadata "document_id" (.str document_id))
    "chunk_index" (.int i)) "created_at" (.str created_at)

/-- Embeds `VectorStore.add_documents`: the records inserted for `chunks`,
with ids `f"{document_id}_{i}"`, and the returned pair
`(document_id, len(chunks))`. -/
def add_documents (chunks : List String) (metadata : PyDict)
    (document_id : String) (created_at : String) :
    List ChunkRecord × (String × Nat) :=
  ((List.range chunks.length).map fun i =>
      { id := document_id ++ "_" ++ toString i
        text := chunks.getD i ""
        meta := chunkMetadata metadata document_id i created_at },
   (document_id, chunks.length))

/-! ## `SimpleCache` (cache.py)

The internal map `self._cache : Dict[str, CacheEntry]` is keyed by
`hashlib.md5(key).hexdigest()`.  The digest is an external library
call; it is modelled by an arbitrary fixed function `h`, so every
theorem below holds for md5 in particular.  `get` evicts the entry on
read when `time.time() > expires_at`. -/

/-- The cached values are full query responses; declared later, so the
cache is parametric in the value type. -/
structure CacheEntry (α : Type) where
  value : α
  expires_at : ℚ
deriving DecidableEq, Repr

/-- The internal map `self._cache`, keyed by hashed keys. -/
abbrev Cache (α : Type) := List (String × CacheEntry α)

/-- Lookup in the internal map. -/
def cacheFind {α : Type} (c : Cache α) (hk : String) : Option (CacheEntry α) :=
  match c with
  | [] => none
  | (k, e) :: rest => if k = hk then some e else cacheFind rest hk

/-- Python `self._cache[hk] = e`: replace in place or append. -/
def cacheStore {α : Type} (c : Cache α) (hk : String) (e : CacheEntry α) : Cache α :=
  match c with
  | [] => [(hk, e)]
  | (k, e') :: rest => if k = hk then (k, e) :: rest else (k, e') :: cacheStore rest hk e

/-- Python `del self._cache[hk]` / `self._cache.pop(hk, None)`. -/
def cacheDrop {α : Type} (c : Cache α) (hk : String) : Cache α :=
  c.filter fun p => p.1 != hk

/-- Embeds `SimpleCache.get`: returns the stored value (the object itself) or
`None`, evicting an expired entry on read.  `h` abstracts
`_generate_key` (md5 hexdigest); `now` is the `time.time()` reading. -/
def SimpleCache.get {α : Type} (h : String → String) (c : Cache α) (key : String)
    (now : ℚ) : Option α × Cache α :=
  let hk := h key
  match cacheFind c hk with
  | none => (none, c)
  | some e => if e.expires_at < now then (none, cacheDrop c hk) else (some e.value, c)

/-- Embeds `SimpleCache.set`: `ttl or default` (Python `or`: `None` and `0`
both fall back to the default), `expires_at = now + ttl`. -/
def SimpleCache.set {α : Type} (h : String → String) (default_ttl : ℚ) (c : Cache α)
    (key : String) (value : α) (now : ℚ) (ttl : Option ℚ) : Cache α :=
  let eff := match ttl with
    | none => default_ttl
    | some t => if t = 0 then default_ttl else t
  cacheStore c (h key) { value := value, expires_at := now + eff }

theorem cacheFind_cacheStore_self {α : Type} (c : Cache α) (hk : String)
    (e : CacheEntry α) : cacheFind (cacheStore c hk e) hk = some e := by
  induction c with
  | nil => simp [cacheStore, cacheFind]
  | cons p rest ih =>
    by_cases h : p.1 = hk
    · simp [cacheStore, cacheFind, h]
    · simp [cacheStore, cacheFind, h, ih]

/-! ## The cache key built by `RAGService.query` (rag_service.py, line 48)

`cache_key = f"{query}:{collection}:{top_k}:{str(metadata_filter)}"`.
The f-string renders each argument with `str()`: `None` renders as
`"None"`, a dict renders as `\x7b'k': repr(v), ...\x7d` in insertion
order. -/

/-- Python `repr` of a scalar as it appears inside `str(dict)`. -/
def pyReprVal : PyVal → String
  | .int n => toString n
  | .str s => "\x27" ++ s ++ "\x27"

/-- Python `str()` of an optional metadata-filter dict. -/
def pyStrFilter : Option PyDict → String
  | none => "None"
  | some d => "\x7b" ++
      String.intercalate ", "
        (d.map fun p => "\x27" ++ p.1 ++ "\x27: " ++ pyReprVal p.2) ++ "\x7d"

/-- Python `str()` of the optional collection name. -/
def pyStrOptStr : Option String → String
  | none => "None"
  | some s => s

/-- Python `str()` of the optional `top_k`. -/
def pyStrOptNat : Option Nat → String
  | none => "None"
  | some n => toString n

/-- The cache key string of `RAGService.query`. -/
def cacheKey (query : String) (collection : Option String) (top_k : Option Nat)
    (metadata_filter : Option PyDict) : String :=
  query ++ ":" ++ pyStrOptStr collection ++ ":" ++ pyStrOptNat top_k ++ ":" ++
    pyStrFilter metadata_filter

/-! ## `VectorStore.search` (vector_store.py, lines 108–165)

ChromaDB's `collection.query(..., n_results=k)` returns parallel lists
`documents[0]`, `distances[0]`, `metadatas[0]` (at most `k` entries,
distances in ascending order).  The embedded `search` is the
result-formatting loop over that response: similarity `1 - distance`,
drop candidates below the threshold. -/

/-- A formatted search result (`content`, `metadata`, `relevance_score`). -/
structure SearchResult where
  content : String
  metadata : PyDict
  relevance_score : ℚ
deriving DecidableEq, Repr

/-- Embeds `VectorStore.search`, applied to the raw Chroma response
(`docs`, `dists`, `metas` are the parallel lists of `results[...][0]`)
and the configured `SIMILARITY_THRESHOLD`. -/
def search (threshold : ℚ) : List String → List ℚ → List PyDict → List SearchResult
  | doc :: docs, dist :: dists, meta :: metas =>
      let similarity := 1 - dist
      if threshold ≤ similarity then
        { content := doc, metadata := meta, relevance_score := similarity } ::
          search threshold docs dists metas
      else search threshold docs dists metas
  | _, _, _ => []

/-! ## `RAGService` (rag_service.py) -/

/-- One formatted source entry (`RAGService._format_sources`). -/
structure Source where
  document_id : PyVal
  content : String
  metadata : PyDict
  relevance_score : ℚ
deriving DecidableEq, Repr

/-- Embeds `RAGService._format_sources`: per source, the document id (default
`"unknown"`), the content truncated to 500 characters, the metadata
without the internal `document_id` / `chunk_index` keys, and the score. -/
def format_sources (documents : List SearchResult) : List Source :=
  documents.map fun doc =>
    { document_id := (dictLookup doc.metadata "document_id").getD (.str "unknown")
      content := doc.content.take 500
      metadata := doc.metadata.filter fun p =>
        p.1 != "document_id" && p.1 != "chunk_index"
      relevance_score := doc.relevance_score }

/-- The response dict assembled by `RAGService.query`.  `cached = none`
models the absence of the `"cached"` key in the metadata dict (the
empty-retrieval branch does not set it). -/
structure Response where
  success : Bool
  query : String
  answer : String
  sources : Option (List Source)
  processing_time_ms : ℚ
  documents_retrieved : Nat
  model : String
  cached : Option Bool
deriving DecidableEq, Repr

/-- The canned answer returned when retrieval finds nothing. -/
def noInfoAnswer : String :=
  "I couldn\x27t find any relevant information to answer your question. Please try rephrasing or ask something else."

/-- Per-call environment of `RAGService.query`: the clock readings and
the responses of the external collaborators (vector store retrieval
outcome, LLM answer, provider name). -/
structure QueryEnv where
  tStart : ℚ
  tNow : ℚ
  tEnd : ℚ
  retrieved : List SearchResult
  llmAnswer : String
  provider : String

/-- The canned empty-retrieval response (rag_service.py, lines 68–78):
note the metadata carries no `"cached"` key. -/
def emptyResult (q : String) (env : QueryEnv) : Response :=
  { success := true, query := q, answer := noInfoAnswer, sources := some [],
    processing_time_ms := (env.tEnd - env.tStart) * 1000,
    documents_retrieved := 0, model := env.provider, cached := none }

/-- The assembled generation response (rag_service.py, lines 91–102). -/
def missResult (q : String) (includeSources : Bool) (env : QueryEnv) : Response :=
  { success := true, query := q, answer := env.llmAnswer,
    sources := if includeSources then some (format_sources env.retrieved) else none,
    processing_time_ms := (env.tEnd - env.tStart) * 1000,
    documents_retrieved := env.retrieved.length, model := env.provider,
    cached := some false }

/-- The miss path of `RAGService.query` (steps after the cache check):
retrieval, empty fallback, generation, assembly, cache write. -/
def queryMiss (enableCache : Bool) (cacheTtl : ℚ) (defaultTtl : ℚ)
    (h : String → String) (key : String) (c : Cache Response) (q : String)
    (includeSources : Bool) (env : QueryEnv) : Response × Cache Response :=
  if env.retrieved.isEmpty then
    (emptyResult q env, c)
  else
    (missResult q includeSources env,
     if enableCache then
       SimpleCache.set h defaultTtl c key (missResult q includeSources env)
         env.tEnd (some cacheTtl)
     else c)

/-- Embeds `RAGService.query`.  On a cache hit the code mutates the cached
dict in place (`cached_result["processing_time_ms"] = ...`,
`cached_result["metadata"]["cached"] = True`) and returns it; since the
returned object *is* the stored entry's value, the mutation writes
through to the store, modelled by `cacheStore` of the updated value
under the same key with the original `expires_at`. -/
def query (enableCache : Bool) (cacheTtl : ℚ) (defaultTtl : ℚ)
    (h : String → String) (c : Cache Response) (q : String)
    (collection : Option String) (top_k : Option Nat)
    (metadata_filter : Option PyDict) (includeSources : Bool)
    (env : QueryEnv) : Response × Cache Response :=
  let key := cacheKey q collection top_k metadata_filter
  if enableCache then
    match cacheFind c (h key) with
    | some e =>
        if e.expires_at < env.tNow then
          queryMiss enableCache cacheTtl defaultTtl h key (cacheDrop c (h key))
            q includeSources env
        else
          let r := { e.value with
            processing_time_ms := (env.tEnd - env.tStart) * 1000,
            cached := some true }
          (r, cacheStore c (h key) { value := r, expires_at := e.expires_at })
    | none => queryMiss enableCache cacheTtl defaultTtl h key c q includeSources env
  else queryMiss enableCache cacheTtl defaultTtl h key c q includeSources env

/-! ## `VectorStore.delete_document` (vector_store.py, lines 167–203)
and `DocumentService.delete_document` (document_service.py, lines 258–293)

A Chroma collection is modelled as the list of its stored records.
`collection.get(where={"document_id": d})` returns the ids of the
records whose metadata has `document_id == d`; `collection.delete(ids)`
removes the records with those ids. -/

/-- Does this record's metadata carry `document_id == d`? -/
def matchesDoc (d : String) (c : ChunkRecord) : Bool :=
  dictLookup c.meta "document_id" == some (.str d)

/-- Embeds `VectorStore.delete_document`: returns the chunk count deleted and
the collection afterwards. -/
def delete_document (col : List ChunkRecord) (d : String) : Nat × List ChunkRecord :=
  let ids := (col.filter (matchesDoc d)).map ChunkRecord.id
  if ids.isEmpty then (0, col)
  else (ids.length, col.filter fun c => !(ids.contains c.id))

/-- Embeds `DocumentService.delete_document`: raises `ValueError` (modelled as
`Except.error`) exactly when the store-level delete returned 0. -/
def DocumentService.delete_document (col : List ChunkRecord) (d : String) :
    Except String ((Bool × String × String × Nat) × List ChunkRecord) :=
  let r := RagSvc.delete_document col d
  if r.1 = 0 then .error ("Document not found: " ++ d)
  else .ok ((true, d, "Document deleted successfully", r.1), r.2)

/-! ## `VectorStore.list_documents` (vector_store.py, lines 205–259)

`collection.get(include=["metadatas"])` yields the raw chunk metadata
list; the code groups it by `document_id` into an insertion-ordered
dict of document summaries, counts chunks per group, then slices
`documents[offset:offset + limit]`. -/

/-- One grouped document summary. -/
structure DocSummary where
  document_id : PyVal
  collection : String
  created_at : Option PyVal
  metadata : PyDict
  chunk_count : Nat
deriving DecidableEq, Repr

/-- Python `documents_map[doc_id]["chunk_count"] += 1`. -/
def bumpCount (m : List (PyVal × DocSummary)) (v : PyVal) : List (PyVal × DocSummary) :=
  m.map fun p =>
    if p.1 = v then (p.1, { p.2 with chunk_count := p.2.chunk_count + 1 }) else p

/-- The loop body over one chunk's metadata: create the summary on the
first (truthy) occurrence of its `document_id`, then bump its count. -/
def groupStep (coll : String) (m : List (PyVal × DocSummary)) (md : PyDict) :
    List (PyVal × DocSummary) :=
  match dictLookup md "document_id" with
  | none => m
  | some v =>
    if pyTruthy v then
      let m1 :=
        if (m.map Prod.fst).contains v then m
        else m ++ [(v,
          { document_id := v
            collection := coll
            created_at := dictLookup md "created_at"
            metadata := md.filter fun p =>
              p.1 != "document_id" && p.1 != "chunk_index" && p.1 != "created_at"
            chunk_count := 0 })]
      bumpCount m1 v
    else m

/-- The grouped document list (insertion order of first occurrence). -/
def groupedDocs (metas : List PyDict) (coll : String) : List DocSummary :=
  (metas.foldl (groupStep coll) []).map Prod.snd

/-- Embeds `VectorStore.list_documents`: the sliced page and the total before
slicing. -/
def list_documents (metas : List PyDict) (coll : String) (limit offset : Nat) :
    List DocSummary × Nat :=
  let documents := groupedDocs metas coll
  ((documents.drop offset).take limit, documents.length)

/-! ## `VectorStore.get_stats` (vector_store.py, lines 261–289)

Any failure of the underlying collection calls is caught and turned
into zeros; the input is therefore the outcome of those calls, an
`Except`.  On success the raw chunk metadata list determines both
counts (`collection.count()` is the number of stored chunks). -/

/-- The truthy `document_id` values of the chunk metadata list. -/
def docIdsOf (metas : List PyDict) : List PyVal :=
  metas.filterMap fun m =>
    match dictLookup m "document_id" with
    | none => none
    | some v => if pyTruthy v then some v else none

/-- Embeds `VectorStore.get_stats`: `(total_chunks, total_documents)`. -/
def get_stats (outcome : Except String (List PyDict)) : Nat × Nat :=
  match outcome with
  | .error _ => (0, 0)
  | .ok metas => (metas.length, (docIdsOf metas).dedup.length)

/-! ## Chunking (`document_processor.py`)

`DocumentProcessor.process_document` (lines 156–175) strips the
content, raises `ValueError("Document content is empty")` when nothing
remains, and otherwise delegates to
`RecursiveCharacterTextSplitter.split_text` with the configured
`CHUNK_SIZE` / `CHUNK_OVERLAP` and the separator priority list
`["\n\n", "\n", ". ", " ", ""]`.  The splitter itself is an external
library, so it is modelled from the spec below. -/

/-- Modelled from the spec: a candidate break position for one
separator — the largest `p ≤ size` past the overlap lead-in such that
the separator ends at position `p`.  (The splitter class is library
code, not part of `src/`.) -/
def lastBreak (sep : List Char) (size overlap : Nat) (cs : List Char) : Option Nat :=
  (((List.range (size + 1)).filter fun p =>
      decide (overlap < p) && sep.isSuffixOf (cs.take p)).max?)

/-- Modelled from the spec: the split point for an over-long text —
the break at the highest-priority separator (paragraph, line,
sentence, space) fitting the size budget, falling back to a hard
character cut at `size`. -/
def splitPoint (size overlap : Nat) (cs : List Char) : Nat :=
  (([['\n', '\n'], ['\n'], ['.', ' '], [' ']].filterMap fun sep =>
      lastBreak sep size overlap cs).head?).getD size

theorem lastBreak_bounds {sep : List Char} {size overlap p : Nat} {cs : List Char}
    (h : lastBreak sep size overlap cs = some p) : overlap < p ∧ p ≤ size := by
  have hmem : p ∈ (List.range (size + 1)).filter fun p =>
      decide (overlap < p) && sep.isSuffixOf (cs.take p) :=
    List.max?_mem (fun a b => max_choice a b) h
  have := List.of_mem_filter hmem
  have hr := List.mem_of_mem_filter hmem
  simp only [Bool.and_eq_true, decide_eq_true_eq] at this
  exact ⟨this.1, Nat.lt_succ_iff.mp (List.mem_range.mp hr)⟩

theorem splitPoint_bounds {size overlap : Nat} (cs : List Char)
    (h : overlap < size) :
    overlap < splitPoint size overlap cs ∧ splitPoint size overlap cs ≤ size := by
  unfold splitPoint
  cases hh : ([['\n', '\n'], ['\n'], ['.', ' '], [' ']].filterMap fun sep =>
      lastBreak sep size overlap cs).head? with
  | none => simpa using h
  | some p =>
    have hmem := List.mem_of_mem_head? hh
    obtain ⟨sep, _, hsep⟩ := List.mem_filterMap.mp hmem
    simpa using lastBreak_bounds hsep

/-- Modelled from the spec: recursive splitting of an over-long text —
emit the segment up to the split point, then restart on the remainder
prefixed with the last `overlap` characters of the segment.  Every
segment has length ≤ `size` and the next segment re-uses the previous
segment's overlap as lead-in. -/
def chunkChars (size overlap : Nat) (h : overlap < size) (cs : List Char) :
    List (List Char) :=
  if _hle : cs.length ≤ size then [cs]
  else
    let p := splitPoint size overlap cs
    cs.take p :: chunkChars size overlap h (cs.drop (p - overlap))
termination_by cs.length
decreasing_by
  have hb := splitPoint_bounds cs h
  simp only [List.length_drop]
  omega

/-- Concatenation of chunks with the overlap lead-in removed from every
chunk after the first. -/
def reconstruct (overlap : Nat) : List (List Char) → List Char
  | [] => []
  | c :: rest => c ++ (rest.map (List.drop overlap)).flatten

/-- Python `str.strip()` on the character list: drop leading and
trailing whitespace. -/
def stripChars (cs : List Char) : List Char :=
  ((cs.dropWhile Char.isWhitespace).reverse.dropWhile Char.isWhitespace).reverse

/-- Embeds `DocumentProcessor.process_document`: strip, reject empty, chunk. -/
def process_document (size overlap : Nat) (h : overlap < size) (content : String) :
    Except String (List String) :=
  let c := stripChars content.data
  if c.isEmpty then .error "Document content is empty"
  else .ok ((chunkChars size overlap h c).map fun l => String.mk l)

/-- Configured chunking parameters (config.py): `CHUNK_SIZE = 1000`,
`CHUNK_OVERLAP = 200`. -/
def CHUNK_SIZE : Nat := 1000

/-- Config `CHUNK_OVERLAP` from config.py. -/
def CHUNK_OVERLAP : Nat := 200

theorem chunk_overlap_lt_size : CHUNK_OVERLAP < CHUNK_SIZE := by decide

/-! ## Claim C10 — metadata merge in `add_documents` -/

/-- C10: every chunk record stored by `VectorStore.add_documents`
carries metadata equal (as a mapping) to the caller metadata updated
with the system keys `document_id`, `chunk_index`, `created_at`; the
system values win, so caller entries under those names are overwritten
and never stored, while all other caller entries are preserved. -/
theorem add_documents_metadata_precedence (chunks : List String) (metadata : PyDict)
    (d t : String) (r : ChunkRecord)
    (hr : r ∈ (add_documents chunks metadata d t).1) :
    dictLookup r.meta "document_id" = some (.str d) ∧
    (∃ i : Nat, i < chunks.length ∧ dictLookup r.meta "chunk_index" = some (.int i)) ∧
    dictLookup r.meta "created_at" = some (.str t) ∧
    ∀ k : String, k ≠ "document_id" → k ≠ "chunk_index" → k ≠ "created_at" →
      dictLookup r.meta k = dictLookup metadata k := by
  simp only [add_documents, List.mem_map, List.mem_range] at hr
  obtain ⟨i, hi, hrec⟩ := hr
  have hmeta : r.meta = chunkMetadata metadata d i t := by rw [← hrec]
  rw [hmeta]
  unfold chunkMetadata
  refine ⟨?_, ⟨i, hi, ?_⟩, ?_, ?_⟩
  · rw [dictLookup_dictSet_ne _ _ _ _ (by decide),
      dictLookup_dictSet_ne _ _ _ _ (by decide), dictLookup_dictSet_self]
  · rw [dictLookup_dictSet_ne _ _ _ _ (by decide), dictLookup_dictSet_self]
  · rw [dictLookup_dictSet_self]
  · intro k h1 h2 h3
    rw [dictLookup_dictSet_ne _ _ _ _ (Ne.symm h3),
      dictLookup_dictSet_ne _ _ _ _ (Ne.symm h2),
      dictLookup_dictSet_ne _ _ _ _ (Ne.symm h1)]

/-- Witness for C10 at a concrete call. -/
theorem add_documents_metadata_precedence_witness :
    dictLookup
      (({ id := "doc_0", text := "hello",
          meta := chunkMetadata [("document_id", .str "spoof"), ("lang", .str "en")]
            "doc" 0 "2024-01-01" } : ChunkRecord).meta) "document_id" =
      some (.str "doc") ∧
    dictLookup
      (({ id := "doc_0", text := "hello",
          meta := chunkMetadata [("document_id", .str "spoof"), ("lang", .str "en")]
            "doc" 0 "2024-01-01" } : ChunkRecord).meta) "lang" = some (.str "en") := by
  have h := add_documents_metadata_precedence ["hello"]
    [("document_id", .str "spoof"), ("lang", .str "en")] "doc" "2024-01-01"
    { id := "doc_0", text := "hello",
      meta := chunkMetadata [("document_id", .str "spoof"), ("lang", .str "en")]
        "doc" 0 "2024-01-01" }
    (by decide)
  exact ⟨h.1, (h.2.2.2 "lang" (by decide) (by decide) (by decide)).trans (by decide)⟩

/-! ## Claim C8 — `get_stats` never raises, distinct document count -/

/-- C8: `get_stats` is total over its boundary: any internal failure
yields `(0, 0)`; on success `total_chunks` is the number of stored
chunks and `total_documents` is the cardinality of the set of distinct
truthy `document_id` values over all chunks, counting no document
twice. -/
theorem get_stats_total_and_distinct :
    (∀ e : String, get_stats (.error e) = (0, 0)) ∧
    (∀ metas : List PyDict,
      (get_stats (.ok metas)).1 = metas.length ∧
      (get_stats (.ok metas)).2 = (docIdsOf metas).toFinset.card) := by
  refine ⟨fun e => rfl, fun metas => ⟨rfl, ?_⟩⟩
  simp [get_stats, List.card_toFinset]

/-! ## Claim C5 — idempotent delete, not-found exactly at zero -/

theorem delete_document_of_no_match {col : List ChunkRecord} {d : String}
    (h : col.filter (matchesDoc d) = []) : delete_document col d = (0, col) := by
  simp [delete_document, h]

/-- C5: deleting a document with no matching chunks returns 0 and
leaves the collection unchanged; a second delete of the same document
always returns 0; and `DocumentService.delete_document` fails with a
not-found error exactly when the store-level delete returns 0. -/
theorem delete_document_idempotent (col : List ChunkRecord) (d : String) :
    ((∀ c ∈ col, matchesDoc d c = false) → delete_document col d = (0, col)) ∧
    (delete_document (delete_document col d).2 d).1 = 0 ∧
    ((∃ msg, DocumentService.delete_document col d = .error msg) ↔
      (delete_document col d).1 = 0) := by
  refine ⟨?_, ?_, ?_⟩
  · intro hnone
    have : col.filter (matchesDoc d) = [] := List.filter_eq_nil_iff.mpr (by
      intro c hc
      simp [hnone c hc])
    simp [delete_document, this]
  · cases hF : col.filter (matchesDoc d) with
    | nil =>
      have h1 : delete_document col d = (0, col) := by simp [delete_document, hF]
      rw [h1]
      simp [delete_document, hF]
    | cons c0 cs =>
      have hsnd : (delete_document col d).2 =
          col.filter fun c =>
            !(((col.filter (matchesDoc d)).map ChunkRecord.id).contains c.id) := by
        simp [delete_document, hF]
      rw [hsnd]
      have hfil2 : (col.filter fun c =>
          !(((col.filter (matchesDoc d)).map ChunkRecord.id).contains c.id)).filter
            (matchesDoc d) = [] := by
        apply List.filter_eq_nil_iff.mpr
        intro c hc
        have hc' := List.of_mem_filter hc
        have hcol : c ∈ col := List.mem_of_mem_filter hc
        intro hmatch
        have hin : c.id ∈ (col.filter (matchesDoc d)).map ChunkRecord.id :=
          List.mem_map_of_mem _ (List.mem_filter.mpr ⟨hcol, hmatch⟩)
        simp [hin] at hc'
      rw [delete_document_of_no_match hfil2]
  · constructor
    · rintro ⟨msg, hmsg⟩
      by_contra hne
      simp [DocumentService.delete_document, hne] at hmsg
    · intro hz
      exact ⟨"Document not found: " ++ d, by simp [DocumentService.delete_document, hz]⟩

/-- Witness for C5 at a concrete collection: deleting an id that is
not present returns 0 and leaves the store intact. -/
theorem delete_document_idempotent_witness :
    delete_document [⟨"x_0", "t", [("document_id", .str "x")]⟩] "y" =
      (0, [⟨"x_0", "t", [("document_id", .str "x")]⟩]) :=
  (delete_document_idempotent [⟨"x_0", "t", [("document_id", .str "x")]⟩] "y").1
    (by decide)

/-! ## Claim C4 — cache-key determinism -/

/-- Config `TOP_K_RESULTS` from config.py: the retrieval default used
when `top_k` is `None`. -/
def TOP_K_RESULTS : Nat := 5

/-- Counterexample for C4 as stated: two metadata filters equal as
mappings (a permutation of the same bindings, pointwise-equal lookups)
produce different cache keys, because the key interpolates `str(dict)`,
which depends on insertion order; likewise `top_k` left at its default
(`None`) keys differently from the equivalent explicit
`TOP_K_RESULTS`, although retrieval behaves identically. -/
theorem cacheKey_insertion_order_sensitive :
    (∀ k : String,
      dictLookup [("a", .int 1), ("b", .int 2)] k =
        dictLookup [("b", .int 2), ("a", .int 1)] k) ∧
    List.Perm [("a", PyVal.int 1), ("b", PyVal.int 2)]
      [("b", PyVal.int 2), ("a", PyVal.int 1)] ∧
    cacheKey "q" none none (some [("a", .int 1), ("b", .int 2)]) ≠
      cacheKey "q" none none (some [("b", .int 2), ("a", .int 1)]) ∧
    cacheKey "q" none none none ≠ cacheKey "q" none (some TOP_K_RESULTS) none := by
  refine ⟨?_, by decide, by decide, by decide⟩
  intro k
  by_cases h1 : "a" = k
  · subst h1
    simp [dictLookup]
  · by_cases h2 : "b" = k
    · subst h2
      simp [dictLookup, h1]
    · simp [dictLookup, h1, h2]

/-- C4 (amended): the cache key is a deterministic function of the
textual rendering of the tuple — same query text and identical `str()`
renderings of collection, topK and metadata filter always give the
same key; equality of the filters as mappings alone does not suffice. -/
theorem cacheKey_deterministic_in_rendering (q : String) (c c' : Option String)
    (k k' : Option Nat) (f f' : Option PyDict)
    (hc : pyStrOptStr c = pyStrOptStr c') (hk : pyStrOptNat k = pyStrOptNat k')
    (hf : pyStrFilter f = pyStrFilter f') :
    cacheKey q c k f = cacheKey q c' k' f' := by
  unfold cacheKey
  rw [hc, hk, hf]

/-- Witness for C4's amended determinism at distinct representations
with equal renderings. -/
theorem cacheKey_deterministic_in_rendering_witness :
    cacheKey "q" (some "None") none none = cacheKey "q" none none none :=
  cacheKey_deterministic_in_rendering "q" (some "None") none none none none none
    (by decide) (by decide) (by decide)

/-! ## Claim C1 — threshold filtering and ordering of `search` -/

theorem mem_search {thr : ℚ} {docs : List String} {dists : List ℚ}
    {metas : List PyDict} {r : SearchResult}
    (hr : r ∈ search thr docs dists metas) :
    thr ≤ r.relevance_score ∧ ∃ q ∈ dists, r.relevance_score = 1 - q := by
  induction docs generalizing dists metas with
  | nil => simp [search] at hr
  | cons doc docs ih =>
    cases dists with
    | nil => simp [search] at hr
    | cons q qs =>
      cases metas with
      | nil => simp [search] at hr
      | cons m ms =>
        simp only [search] at hr
        split at hr
        · rcases List.mem_cons.mp hr with h | h
          · subst h
            exact ⟨by assumption, q, List.mem_cons_self q qs, rfl⟩
          · obtain ⟨h1, q', hq', heq⟩ := ih h
            exact ⟨h1, q', List.mem_cons_of_mem q hq', heq⟩
        · obtain ⟨h1, q', hq', heq⟩ := ih hr
          exact ⟨h1, q', List.mem_cons_of_mem q hq', heq⟩

theorem search_length_le {thr : ℚ} {docs : List String} {dists : List ℚ}
    {metas : List PyDict} :
    (search thr docs dists metas).length ≤ docs.length := by
  induction docs generalizing dists metas with
  | nil => cases dists <;> cases metas <;> simp [search]
  | cons doc docs ih =>
    cases dists with
    | nil => simp [search]
    | cons q qs =>
      cases metas with
      | nil => simp [search]
      | cons m ms =>
        simp only [search]
        split
        · simpa using Nat.succ_le_succ ih
        · exact le_trans ih (Nat.le_succ _)

theorem search_sorted {thr : ℚ} {docs : List String} {dists : List ℚ}
    {metas : List PyDict} (hasc : dists.Sorted (· ≤ ·)) :
    ((search thr docs dists metas).map SearchResult.relevance_score).Sorted (· ≥ ·) := by
  induction docs generalizing dists metas with
  | nil => simp [search]
  | cons doc docs ih =>
    cases dists with
    | nil => simp [search]
    | cons q qs =>
      cases metas with
      | nil => simp [search]
      | cons m ms =>
        have hqs : qs.Sorted (· ≤ ·) := (List.sorted_cons.mp hasc).2
        have hle : ∀ x ∈ qs, q ≤ x := (List.sorted_cons.mp hasc).1
        simp only [search]
        split
        · rw [List.map_cons]
          refine List.sorted_cons.mpr ⟨?_, ih hqs⟩
          intro s hs
          obtain ⟨r, hrmem, hrs⟩ := List.mem_map.mp hs
          obtain ⟨_, q', hq', heq⟩ := mem_search hrmem
          rw [← hrs, heq]
          have := hle q' hq'
          simp
          linarith
        · exact ih hqs

/-- C1: applied to a Chroma response whose distances are ascending (the
store's contract) and whose candidate list holds at most `topK`
entries, `search` returns only results with `relevance_score = 1 -
distance` at or above the threshold (candidates below it are dropped),
in descending `relevance_score` order, and hence possibly fewer than
`topK` results, including none. -/
theorem search_threshold_and_order (thr : ℚ) (docs : List String) (dists : List ℚ)
    (metas : List PyDict) (k : Nat)
    (hasc : dists.Sorted (· ≤ ·)) (hk : docs.length ≤ k) :
    (∀ r ∈ search thr docs dists metas, thr ≤ r.relevance_score) ∧
    ((search thr docs dists metas).map SearchResult.relevance_score).Sorted (· ≥ ·) ∧
    (search thr docs dists metas).length ≤ k :=
  ⟨fun _ hr => (mem_search hr).1, search_sorted hasc, le_trans search_length_le hk⟩

/-- Witness for C1 at a concrete response: two candidates, one below
threshold; the result is shorter than `topK`. -/
theorem search_threshold_and_order_witness :
    ([(0 : ℚ), 2].Sorted (· ≤ ·) ∧ (["x", "y"] : List String).length ≤ 2) ∧
    ((∀ r ∈ search 1 ["x", "y"] [0, 2] [[], []], 1 ≤ r.relevance_score) ∧
     ((search 1 ["x", "y"] [0, 2] [[], []]).map
        SearchResult.relevance_score).Sorted (· ≥ ·) ∧
     (search 1 ["x", "y"] [0, 2] [[], []]).length ≤ 2) :=
  ⟨⟨by decide, by decide⟩,
   search_threshold_and_order 1 ["x", "y"] [0, 2] [[], []] 2
     (by decide) (by decide)⟩

/-! ## Claim C6 — grouping and pagination of `list_documents` -/

/-- Invariant of the grouping fold: the map keys are distinct and each
summary's `document_id` equals its key. -/
def GroupInv (m : List (PyVal × DocSummary)) : Prop :=
  (m.map Prod.fst).Nodup ∧ ∀ p ∈ m, p.2.document_id = p.1

theorem bumpCount_map_fst (m : List (PyVal × DocSummary)) (v : PyVal) :
    (bumpCount m v).map Prod.fst = m.map Prod.fst := by
  unfold bumpCount
  rw [List.map_map]
  apply List.map_congr_left
  intro p _
  by_cases h : p.1 = v <;> simp [h]

theorem mem_bumpCount {m : List (PyVal × DocSummary)} {v : PyVal}
    {p : PyVal × DocSummary} (hp : p ∈ bumpCount m v) :
    ∃ p0 ∈ m, p.1 = p0.1 ∧ p.2.document_id = p0.2.document_id := by
  unfold bumpCount at hp
  obtain ⟨p0, hp0, heq⟩ := List.mem_map.mp hp
  refine ⟨p0, hp0, ?_⟩
  by_cases h : p0.1 = v
  · rw [if_pos h] at heq
    rw [← heq]
    exact ⟨rfl, rfl⟩
  · rw [if_neg h] at heq
    rw [← heq]
    exact ⟨rfl, rfl⟩

theorem groupStep_inv {coll : String} {m : List (PyVal × DocSummary)} {md : PyDict}
    (h : GroupInv m) : GroupInv (groupStep coll m md) := by
  cases hv : dictLookup md "document_id" with
  | none => simpa only [groupStep, hv] using h
  | some v =>
    simp only [groupStep, hv]
    by_cases ht : pyTruthy v
    · rw [if_pos ht]
      set m1 := if (m.map Prod.fst).contains v then m
        else m ++ [(v,
          { document_id := v
            collection := coll
            created_at := dictLookup md "created_at"
            metadata := md.filter fun p =>
              p.1 != "document_id" && p.1 != "chunk_index" && p.1 != "created_at"
            chunk_count := 0 })] with hm1
      have hinv1 : GroupInv m1 := by
        rw [hm1]
        by_cases hc : (m.map Prod.fst).contains v
        · rw [if_pos hc]; exact h
        · rw [if_neg hc]
          have hnotin : v ∉ m.map Prod.fst := by
            intro hvin
            exact hc (by simpa using hvin)
          constructor
          · rw [List.map_append]
            simp only [List.map_cons, List.map_nil]
            exact List.Nodup.append h.1 (List.nodup_singleton v)
              (by
                intro a ha hb
                simp only [List.mem_singleton] at hb
                subst hb
                exact hnotin ha)
          · intro p hp
            rcases List.mem_append.mp hp with hp | hp
            · exact h.2 p hp
            · simp only [List.mem_singleton] at hp
              subst hp
              rfl
      constructor
      · rw [bumpCount_map_fst]
        exact hinv1.1
      · intro p hp
        obtain ⟨p0, hp0, hfst, hdoc⟩ := mem_bumpCount hp
        rw [hdoc, hfst]
        exact hinv1.2 p0 hp0
    · rw [if_neg ht]
      exact h

theorem foldl_groupStep_inv (coll : String) (metas : List PyDict) :
    ∀ m, GroupInv m → GroupInv (metas.foldl (groupStep coll) m) := by
  induction metas with
  | nil => exact fun _ h => h
  | cons md metas ih => exact fun m h => ih _ (groupStep_inv h)

theorem groupedDocs_nodup_ids (metas : List PyDict) (coll : String) :
    ((groupedDocs metas coll).map DocSummary.document_id).Nodup := by
  have hinv := foldl_groupStep_inv coll metas [] ⟨List.nodup_nil, by simp⟩
  unfold groupedDocs
  rw [List.map_map]
  have heq : (metas.foldl (groupStep coll) []).map (DocSummary.document_id ∘ Prod.snd) =
      (metas.foldl (groupStep coll) []).map Prod.fst :=
    List.map_congr_left fun p hp => hinv.2 p hp
  rw [heq]
  exact hinv.1

/-- C6: `list_documents` reports as `total` the number of grouped
documents before slicing (the same in every call), returns the
offset/limit slice of the grouped list (not of the raw chunks), and
pages at consecutive offsets are disjoint and tile the grouped list. -/
theorem list_documents_pagination (metas : List PyDict) (coll : String)
    (limit offset : Nat) :
    (list_documents metas coll limit offset).2 = (groupedDocs metas coll).length ∧
    (list_documents metas coll limit offset).1 =
      ((groupedDocs metas coll).drop offset).take limit ∧
    (groupedDocs metas coll).drop offset =
      (list_documents metas coll limit offset).1 ++
        (groupedDocs metas coll).drop (offset + limit) ∧
    List.Disjoint
      ((list_documents metas coll limit offset).1.map DocSummary.document_id)
      ((list_documents metas coll limit (offset + limit)).1.map DocSummary.document_id) := by
  refine ⟨rfl, rfl, ?_, ?_⟩
  · conv_lhs => rw [← List.take_append_drop limit ((groupedDocs metas coll).drop offset)]
    rw [List.drop_drop]
    simp [list_documents]
  · simp only [list_documents]
    rw [List.map_take, List.map_drop, List.map_take, List.map_drop]
    have hx : (((groupedDocs metas coll).map DocSummary.document_id).drop offset).Nodup :=
      (groupedDocs_nodup_ids metas coll).sublist (List.drop_sublist _ _)
    have hdisj := List.disjoint_take_drop hx (le_refl limit)
    intro a ha hb
    apply hdisj ha
    have hbsub : a ∈ ((groupedDocs metas coll).map DocSummary.document_id).drop (offset + limit) :=
      List.take_subset _ _ hb
    rw [← List.drop_drop] at hbsub
    exact hbsub

/-! ## Claim C7 — chunking round-trip and empty-input rejection -/

theorem chunkChars_flatten_drop (size overlap : Nat) (h : overlap < size)
    (cs : List Char) :
    ((chunkChars size overlap h cs).map (List.drop overlap)).flatten =
      cs.drop overlap := by
  induction cs using chunkChars.induct size overlap h with
  | case1 cs hle =>
    rw [chunkChars, dif_pos hle]
    simp
  | case2 cs hle p ih =>
    rw [chunkChars, dif_neg hle]
    simp only [List.map_cons, List.flatten_cons]
    rw [ih]
    have hb := splitPoint_bounds cs h
    rw [List.drop_drop, Nat.sub_add_cancel hb.1.le, List.drop_take]
    rw [show List.drop (splitPoint size overlap cs) cs =
        List.drop (splitPoint size overlap cs - overlap) (List.drop overlap cs) by
      rw [List.drop_drop, Nat.add_sub_cancel' hb.1.le]]
    exact List.take_append_drop _ _

theorem reconstruct_chunkChars (size overlap : Nat) (h : overlap < size)
    (cs : List Char) :
    reconstruct overlap (chunkChars size overlap h cs) = cs := by
  rw [chunkChars]
  by_cases hle : cs.length ≤ size
  · rw [dif_pos hle]
    simp [reconstruct]
  · rw [dif_neg hle]
    simp only [reconstruct]
    rw [chunkChars_flatten_drop]
    have hb := splitPoint_bounds cs h
    rw [List.drop_drop, Nat.sub_add_cancel hb.1.le]
    exact List.take_append_drop _ _

/-- C7 (amended): for input whose stripped text is empty,
`process_document` fails with the empty-input error; for non-empty
stripped text no longer than the chunk size it returns exactly one
chunk equal to the *stripped* input; and in general concatenating the
produced chunks with the overlap lead-in removed reconstructs the
*stripped* input text (not the raw input, which loses its surrounding
whitespace). -/
theorem process_document_chunks (size overlap : Nat) (h : overlap < size)
    (content : String) :
    (stripChars content.data = [] →
      process_document size overlap h content = .error "Document content is empty") ∧
    (stripChars content.data ≠ [] → (stripChars content.data).length ≤ size →
      process_document size overlap h content =
        .ok [String.mk (stripChars content.data)]) ∧
    (stripChars content.data ≠ [] →
      reconstruct overlap (chunkChars size overlap h (stripChars content.data)) =
        stripChars content.data ∧
      process_document size overlap h content =
        .ok ((chunkChars size overlap h (stripChars content.data)).map
          fun l => String.mk l)) := by
  refine ⟨?_, ?_, ?_⟩
  · intro hempty
    simp only [process_document, hempty]
    rfl
  · intro hne hlen
    simp only [process_document]
    rw [if_neg (by simpa [List.isEmpty_iff] using hne)]
    rw [chunkChars, dif_pos hlen]
    rfl
  · intro hne
    refine ⟨reconstruct_chunkChars _ _ _ _, ?_⟩
    simp only [process_document]
    rw [if_neg (by simpa [List.isEmpty_iff] using hne)]

/-- Counterexample to C7 as stated: for the whitespace-padded input
`" a "` the produced chunks are `["a"]`, whose overlap-removed
concatenation is the stripped text `"a"`, not the original input. -/
theorem process_document_roundtrip_counterexample :
    process_document CHUNK_SIZE CHUNK_OVERLAP chunk_overlap_lt_size " a " =
      .ok ["a"] ∧
    reconstruct CHUNK_OVERLAP [("a" : String).data] = ("a" : String).data ∧
    ("a" : String).data ≠ (" a " : String).data := by
  have hstrip : stripChars (" a " : String).data = ['a'] := by decide
  refine ⟨?_, by simp [reconstruct], by decide⟩
  simp only [process_document, hstrip]
  rw [if_neg (by decide)]
  rw [chunkChars, dif_pos (by decide)]
  rfl

/-- Witness for C7: the spec's concrete scenario `"A. B. C."` with the
configured size/overlap yields exactly one chunk equal to the input. -/
theorem process_document_chunks_witness :
    process_document CHUNK_SIZE CHUNK_OVERLAP chunk_overlap_lt_size "A. B. C." =
      .ok ["A. B. C."] := by
  have h := (process_document_chunks CHUNK_SIZE CHUNK_OVERLAP chunk_overlap_lt_size
    "A. B. C.").2.1 (by decide) (by decide)
  rw [h]
  rw [show String.mk (stripChars ("A. B. C." : String).data) = "A. B. C." by decide]

/-! ## Claims C2, C3, C9 — `RAGService.query` cache behaviour -/

theorem cacheFind_cacheDrop_self {α : Type} (c : Cache α) (hk : String) :
    cacheFind (cacheDrop c hk) hk = none := by
  induction c with
  | nil => rfl
  | cons p rest ih =>
    by_cases h : p.1 = hk
    · simp [cacheDrop, h] at ih ⊢
      exact ih
    · simp [cacheDrop, cacheFind, h] at ih ⊢
      exact ih

theorem cacheFind_cacheDrop_ne {α : Type} (c : Cache α) (hk hk' : String)
    (h : hk' ≠ hk) : cacheFind (cacheDrop c hk) hk' = cacheFind c hk' := by
  induction c with
  | nil => rfl
  | cons p rest ih =>
    obtain ⟨k, e⟩ := p
    by_cases hp : k = hk
    · have hfil : cacheDrop ((k, e) :: rest) hk = cacheDrop rest hk := by
        simp [cacheDrop, hp]
      have hne : k ≠ hk' := by
        rw [hp]
        exact Ne.symm h
      rw [hfil, ih]
      simp [cacheFind, hne]
    · have hfil : cacheDrop ((k, e) :: rest) hk = (k, e) :: cacheDrop rest hk := by
        simp [cacheDrop, hp]
      rw [hfil]
      by_cases hp' : k = hk'
      · simp [cacheFind, hp']
      · simp [cacheFind, hp', ih]

/-- Evaluation of `query` on a fresh (unexpired) cache hit: the stored
value is returned with this call's elapsed time and `cached := true`,
and — because the mutation happens on the stored object itself — the
store now holds the updated value under the same key and expiry. -/
theorem query_hit_eq (ttl dttl : ℚ) (h : String → String) (c : Cache Response)
    (q : String) (coll : Option String) (topk : Option Nat) (mf : Option PyDict)
    (inc : Bool) (env : QueryEnv) (e : CacheEntry Response)
    (hfind : cacheFind c (h (cacheKey q coll topk mf)) = some e)
    (hexp : ¬ e.expires_at < env.tNow) :
    query true ttl dttl h c q coll topk mf inc env =
      ({ e.value with
          processing_time_ms := (env.tEnd - env.tStart) * 1000
          cached := some true },
       cacheStore c (h (cacheKey q coll topk mf))
         { value := { e.value with
             processing_time_ms := (env.tEnd - env.tStart) * 1000
             cached := some true }
           expires_at := e.expires_at }) := by
  simp only [query, hfind, if_neg hexp, if_true]

/-- Evaluation of `query` on a clean miss with a non-empty retrieval:
the assembled response is returned and stored under the key with
expiry `tEnd + ttl`. -/
theorem query_miss_nonempty_eq (ttl dttl : ℚ) (h : String → String)
    (c : Cache Response) (q : String) (coll : Option String) (topk : Option Nat)
    (mf : Option PyDict) (inc : Bool) (env : QueryEnv)
    (httl : ttl ≠ 0)
    (hmiss : cacheFind c (h (cacheKey q coll topk mf)) = none)
    (hret : env.retrieved.isEmpty = false) :
    query true ttl dttl h c q coll topk mf inc env =
      (missResult q inc env,
       cacheStore c (h (cacheKey q coll topk mf))
         { value := missResult q inc env, expires_at := env.tEnd + ttl }) := by
  simp only [query, hmiss, queryMiss, hret, Bool.false_eq_true, if_false, if_true,
    SimpleCache.set, if_neg httl]

/-- Evaluation of the miss path when retrieval is empty: the canned
response, no cache write. -/
theorem queryMiss_empty (ec : Bool) (ttl dttl : ℚ) (h : String → String)
    (key : String) (c : Cache Response) (q : String) (inc : Bool) (env : QueryEnv)
    (hret : env.retrieved = []) :
    queryMiss ec ttl dttl h key c q inc env = (emptyResult q env, c) := by
  simp [queryMiss, hret]

/-- C2: a `query` call with caching enabled whose key holds an
unexpired entry returns the cached response with only
`processing_time_ms` recomputed for this call and `cached := true`
added, the payload otherwise unmodified; consequently a second call
with the identical (text, collection, topK, filter) tuple within the
TTL window of a first generating call returns the same answer and
sources, differing only in the processing time and the cached flag. -/
theorem query_cached_response_roundtrip :
    (∀ (ttl dttl : ℚ) (h : String → String) (c : Cache Response) (q : String)
        (coll : Option String) (topk : Option Nat) (mf : Option PyDict)
        (inc : Bool) (env : QueryEnv) (e : CacheEntry Response),
      cacheFind c (h (cacheKey q coll topk mf)) = some e →
      ¬ e.expires_at < env.tNow →
      (query true ttl dttl h c q coll topk mf inc env).1 =
        { e.value with
            processing_time_ms := (env.tEnd - env.tStart) * 1000
            cached := some true }) ∧
    (∀ (ttl dttl : ℚ) (h : String → String) (c : Cache Response) (q : String)
        (coll : Option String) (topk : Option Nat) (mf : Option PyDict)
        (inc : Bool) (env1 env2 : QueryEnv),
      ttl ≠ 0 →
      cacheFind c (h (cacheKey q coll topk mf)) = none →
      env1.retrieved ≠ [] →
      env2.tNow ≤ env1.tEnd + ttl →
      (query true ttl dttl h (query true ttl dttl h c q coll topk mf inc env1).2
          q coll topk mf inc env2).1.answer =
        (query true ttl dttl h c q coll topk mf inc env1).1.answer ∧
      (query true ttl dttl h (query true ttl dttl h c q coll topk mf inc env1).2
          q coll topk mf inc env2).1.sources =
        (query true ttl dttl h c q coll topk mf inc env1).1.sources ∧
      (query true ttl dttl h (query true ttl dttl h c q coll topk mf inc env1).2
          q coll topk mf inc env2).1.query =
        (query true ttl dttl h c q coll topk mf inc env1).1.query ∧
      (query true ttl dttl h (query true ttl dttl h c q coll topk mf inc env1).2
          q coll topk mf inc env2).1.success =
        (query true ttl dttl h c q coll topk mf inc env1).1.success ∧
      (query true ttl dttl h (query true ttl dttl h c q coll topk mf inc env1).2
          q coll topk mf inc env2).1.documents_retrieved =
        (query true ttl dttl h c q coll topk mf inc env1).1.documents_retrieved ∧
      (query true ttl dttl h (query true ttl dttl h c q coll topk mf inc env1).2
          q coll topk mf inc env2).1.model =
        (query true ttl dttl h c q coll topk mf inc env1).1.model ∧
      (query true ttl dttl h c q coll topk mf inc env1).1.cached = some false ∧
      (query true ttl dttl h (query true ttl dttl h c q coll topk mf inc env1).2
          q coll topk mf inc env2).1.cached = some true) := by
  constructor
  · intro ttl dttl h c q coll topk mf inc env e hfind hexp
    rw [query_hit_eq ttl dttl h c q coll topk mf inc env e hfind hexp]
  · intro ttl dttl h c q coll topk mf inc env1 env2 httl hmiss hret hwin
    have hisEmpty : env1.retrieved.isEmpty = false := by
      simpa [List.isEmpty_iff] using hret
    rw [query_miss_nonempty_eq ttl dttl h c q coll topk mf inc env1 httl hmiss hisEmpty]
    have hfind2 := cacheFind_cacheStore_self c (h (cacheKey q coll topk mf))
      { value := missResult q inc env1, expires_at := env1.tEnd + ttl }
    have hexp2 : ¬ (env1.tEnd + ttl) < env2.tNow := not_lt.mpr hwin
    rw [query_hit_eq ttl dttl h _ q coll topk mf inc env2 _ hfind2 hexp2]
    exact ⟨rfl, rfl, rfl, rfl, rfl, rfl, rfl, rfl⟩

/-- Witness for C2 at a concrete pair of calls. -/
theorem query_cached_response_roundtrip_witness :
    (query true 10 5 (fun s => s)
        (query true 10 5 (fun s => s) [] "q" none none none true
          ⟨0, 0, 1, [⟨"text", [], 1⟩], "ans", "openai"⟩).2
        "q" none none none true ⟨2, 2, 3, [], "other", "openai"⟩).1.answer =
      (query true 10 5 (fun s => s) [] "q" none none none true
        ⟨0, 0, 1, [⟨"text", [], 1⟩], "ans", "openai"⟩).1.answer ∧
    (query true 10 5 (fun s => s) [] "q" none none none true
        ⟨0, 0, 1, [⟨"text", [], 1⟩], "ans", "openai"⟩).1.cached = some false ∧
    (query true 10 5 (fun s => s)
        (query true 10 5 (fun s => s) [] "q" none none none true
          ⟨0, 0, 1, [⟨"text", [], 1⟩], "ans", "openai"⟩).2
        "q" none none none true ⟨2, 2, 3, [], "other", "openai"⟩).1.cached =
      some true := by
  have h := query_cached_response_roundtrip.2 10 5 (fun s => s) [] "q" none none none
    true ⟨0, 0, 1, [⟨"text", [], 1⟩], "ans", "openai"⟩ ⟨2, 2, 3, [], "other", "openai"⟩
    (by norm_num) rfl (by simp) (by norm_num)
  exact ⟨h.1, h.2.2.2.2.2.2.1, h.2.2.2.2.2.2.2⟩

/-- C9: a cache hit is not read-only — after the call the stored entry
under the key holds the very response object returned to the caller
(with `cached = true` and this call's elapsed time), under the
original expiry. -/
theorem query_hit_writes_through (ttl dttl : ℚ) (h : String → String)
    (c : Cache Response) (q : String) (coll : Option String) (topk : Option Nat)
    (mf : Option PyDict) (inc : Bool) (env : QueryEnv) (e : CacheEntry Response)
    (hfind : cacheFind c (h (cacheKey q coll topk mf)) = some e)
    (hexp : ¬ e.expires_at < env.tNow) :
    cacheFind (query true ttl dttl h c q coll topk mf inc env).2
        (h (cacheKey q coll topk mf)) =
      some { value := (query true ttl dttl h c q coll topk mf inc env).1
             expires_at := e.expires_at } ∧
    (query true ttl dttl h c q coll topk mf inc env).1.cached = some true ∧
    (query true ttl dttl h c q coll topk mf inc env).1.processing_time_ms =
      (env.tEnd - env.tStart) * 1000 := by
  rw [query_hit_eq ttl dttl h c q coll topk mf inc env e hfind hexp]
  exact ⟨cacheFind_cacheStore_self c _ _, rfl, rfl⟩

/-- Witness for C9 at a concrete hit. -/
theorem query_hit_writes_through_witness :
    (query true 10 5 (fun s => s)
        [(cacheKey "q" none none none,
          ⟨⟨true, "q", "a", none, 0, 1, "openai", some false⟩, 100⟩)]
        "q" none none none true ⟨2, 3, 4, [], "x", "openai"⟩).1.cached =
      some true ∧
    cacheFind
      (query true 10 5 (fun s => s)
          [(cacheKey "q" none none none,
            ⟨⟨true, "q", "a", none, 0, 1, "openai", some false⟩, 100⟩)]
          "q" none none none true ⟨2, 3, 4, [], "x", "openai"⟩).2
      (cacheKey "q" none none none) =
      some { value := (query true 10 5 (fun s => s)
               [(cacheKey "q" none none none,
                 ⟨⟨true, "q", "a", none, 0, 1, "openai", some false⟩, 100⟩)]
               "q" none none none true ⟨2, 3, 4, [], "x", "openai"⟩).1
             expires_at := 100 } := by
  have h := query_hit_writes_through 10 5 (fun s => s)
    [(cacheKey "q" none none none,
      ⟨⟨true, "q", "a", none, 0, 1, "openai", some false⟩, 100⟩)]
    "q" none none none true ⟨2, 3, 4, [], "x", "openai"⟩
    ⟨⟨true, "q", "a", none, 0, 1, "openai", some false⟩, 100⟩
    (by simp [cacheFind]) (by norm_num)
  exact ⟨h.2.1, h.1⟩

/-- C3 (amended): a query whose retrieval is empty returns the canned
no-information answer with empty sources and `documents_retrieved = 0`,
and writes nothing to the cache: after the call every key maps to what
it mapped to before, except that the lookup may have lazily evicted an
already-expired entry under the query's own key. -/
theorem query_empty_retrieval_no_write (enableCache : Bool) (ttl dttl : ℚ)
    (h : String → String) (c : Cache Response) (q : String) (coll : Option String)
    (topk : Option Nat) (mf : Option PyDict) (inc : Bool) (env : QueryEnv)
    (hmiss : enableCache = true →
      cacheFind c (h (cacheKey q coll topk mf)) = none ∨
      ∃ e, cacheFind c (h (cacheKey q coll topk mf)) = some e ∧
        e.expires_at < env.tNow)
    (hret : env.retrieved = []) :
    (query enableCache ttl dttl h c q coll topk mf inc env).1.answer =
      noInfoAnswer ∧
    (query enableCache ttl dttl h c q coll topk mf inc env).1.sources = some [] ∧
    (query enableCache ttl dttl h c q coll topk mf inc env).1.documents_retrieved
      = 0 ∧
    ∀ hk : String,
      cacheFind (query enableCache ttl dttl h c q coll topk mf inc env).2 hk =
        cacheFind c hk ∨
      (cacheFind (query enableCache ttl dttl h c q coll topk mf inc env).2 hk =
        none ∧
       ∃ e, cacheFind c hk = some e ∧ e.expires_at < env.tNow) := by
  cases enableCache with
  | false =>
    simp only [query, Bool.false_eq_true, if_false]
    rw [queryMiss_empty false ttl dttl h _ c q inc env hret]
    exact ⟨rfl, rfl, rfl, fun hk => Or.inl rfl⟩
  | true =>
    rcases hmiss rfl with hnone | ⟨e, hfind, hexp⟩
    · simp only [query, hnone]
      rw [queryMiss_empty true ttl dttl h _ c q inc env hret]
      exact ⟨rfl, rfl, rfl, fun hk => Or.inl rfl⟩
    · simp only [query, hfind, if_pos hexp]
      rw [queryMiss_empty true ttl dttl h _ _ q inc env hret]
      refine ⟨rfl, rfl, rfl, fun hk => ?_⟩
      by_cases hhk : hk = h (cacheKey q coll topk mf)
      · subst hhk
        exact Or.inr ⟨cacheFind_cacheDrop_self c _, e, hfind, hexp⟩
      · exact Or.inl (cacheFind_cacheDrop_ne c _ hk hhk)

/-- Witness for C3's amended statement at a concrete call. -/
theorem query_empty_retrieval_no_write_witness :
    (query true 10 5 (fun s => s) [] "q" none none none true
        ⟨0, 1, 1, [], "", "openai"⟩).1.answer = noInfoAnswer ∧
    (query true 10 5 (fun s => s) [] "q" none none none true
        ⟨0, 1, 1, [], "", "openai"⟩).2 = [] := by
  have h := query_empty_retrieval_no_write true 10 5 (fun s => s) [] "q"
    none none none true ⟨0, 1, 1, [], "", "openai"⟩ (fun _ => Or.inl rfl) rfl
  refine ⟨h.1, ?_⟩
  simp only [query, cacheFind, if_true]
  rw [queryMiss_empty true 10 5 (fun s => s) _ [] "q" true
    ⟨0, 1, 1, [], "", "openai"⟩ rfl]

/-- Counterexample to C3 as stated: with an *expired* entry sitting
under the query's key, a call whose retrieval is empty does change the
`ResultCache` state — the lookup evicts the expired entry — even
though the empty-result response itself is never written. -/
theorem query_empty_retrieval_cache_changed :
    (query true 10 5 (fun s => s)
        [(cacheKey "q" none none none,
          ⟨⟨true, "q", "a", none, 0, 0, "openai", some false⟩, 0⟩)]
        "q" none none none true ⟨0, 1, 1, [], "", "openai"⟩).2 = [] ∧
    ([(cacheKey "q" none none none,
        ⟨⟨true, "q", "a", none, 0, 0, "openai", some false⟩, (0 : ℚ)⟩)] :
      Cache Response) ≠ [] := by
  constructor
  · have hfind : cacheFind
        ([(cacheKey "q" none none none,
          ⟨⟨true, "q", "a", none, 0, 0, "openai", some false⟩, (0 : ℚ)⟩)] :
          Cache Response)
        ((fun s => s) (cacheKey "q" none none none)) =
        some (⟨⟨true, "q", "a", none, 0, 0, "openai", some false⟩, (0 : ℚ)⟩ :
          CacheEntry Response) := by
      simp [cacheFind]
    simp only [query, hfind, if_pos (by norm_num : (0 : ℚ) < 1)]
    rw [queryMiss_empty true 10 5 (fun s => s) _ _ "q" true
      ⟨0, 1, 1, [], "", "openai"⟩ rfl]
    simp [cacheDrop]
  · simp

end RagSvc
